import Mathlib

/-!
Verification development for the TradeTracker bot (`src/main_en.py`).

The embedding idealises Python floats as exact rationals (`ℚ`), text as
lists of characters (ASCII fragment), the PostgreSQL tables as in-memory
lists of rows, and the per-user `user_states` entry as an optional
session record.  Fallible code paths (a raised exception caught by a
handler) are modelled with `Option`/`Except`.
-/

set_option allowUnsafeReducibility true in
attribute [semireducible] Rat.mul Rat.add Rat.sub Rat.inv Rat.ofScientific

deriving instance DecidableEq for Except

namespace TradeTracker

/-- Text is modelled as a list of characters (Python `str`, ASCII fragment). -/
abbrev Chars := List Char

/-- Coerces a Lean string literal to the character-list representation. -/
def chars (s : String) : Chars := s.data

/-- ASCII whitespace, as recognised by Python `str.strip()` and `float()`. -/
def isWs (c : Char) : Bool :=
  c = ' ' || c = '\t' || c = '\n' || c = '\r' || c = '\x0b' || c = '\x0c'

/-- Python `s.strip()` (ASCII fragment). -/
def stripWs (s : Chars) : Chars :=
  ((s.dropWhile isWs).reverse.dropWhile isWs).reverse

/-- Python `s.replace("%", "")`: every occurrence of the percent sign is removed. -/
def removePct (s : Chars) : Chars := s.filter (fun c => c ≠ '%')

/-- `message.text.strip().replace("%", "")` — main_en.py line 871, applied to every inbound text before any step logic. -/
def clean (s : Chars) : Chars := removePct (stripWs s)

/-- Python `s.lower()` (ASCII fragment). -/
def lowerChars (s : Chars) : Chars := s.map Char.toLower

/-- Result of Python `float(text)`: a finite value (idealised as an exact rational) or one of the special values. -/
inductive PyNum where
  | fin (q : ℚ)
  | pinf
  | ninf
  | nan
deriving DecidableEq

/-- Numeric payload of a successful parse.  Non-finite specials are idealised as 0; no claim exercises them. -/
def pyToQ : PyNum → ℚ
  | .fin q => q
  | _ => 0

/-- Numeric value of an ASCII digit. -/
def digitVal (c : Char) : ℕ := c.toNat - 48

/-- Parses a PEP 515 digit run `digit (["_"] digit)*`: accumulated value, number of digits consumed, rest of the input.  An underscore is consumed only between two digits of the same run (`cnt ≠ 0` holds exactly when the previously consumed character of this run was a digit, since the underscore arm consumes the following digit with it), so a run-initial underscore such as in `_5`, `._5`, `1._5` or `1e_5` stops the run and the input is rejected, as Python `float()` rejects it. -/
def digitRun : ℕ → ℕ → Chars → ℕ × ℕ × Chars
  | acc, cnt, [] => (acc, cnt, [])
  | acc, cnt, [c] =>
    if c.isDigit then (10 * acc + digitVal c, cnt + 1, [])
    else (acc, cnt, [c])
  | acc, cnt, c :: d :: rest2 =>
    if c.isDigit then digitRun (10 * acc + digitVal c) (cnt + 1) (d :: rest2)
    else if c = '_' && d.isDigit && cnt ≠ 0 then
      digitRun (10 * acc + digitVal d) (cnt + 1) rest2
    else (acc, cnt, c :: d :: rest2)

/-- Exponent digits with an already-consumed sign; the digits must reach the end of the input. -/
def expDigits (t : Chars) (neg : Bool) : Option ℤ :=
  let r := digitRun 0 0 t
  if r.2.1 = 0 || r.2.2 ≠ [] then none
  else some (if neg then -(r.1 : ℤ) else (r.1 : ℤ))

/-- Optional exponent suffix `("e"|"E") [sign] digitpart`; `some k` only when the whole remaining input is consumed. -/
def expPart : Chars → Option ℤ
  | [] => some 0
  | c :: r =>
    if c = 'e' || c = 'E' then
      match r with
      | '+' :: t => expDigits t false
      | '-' :: t => expDigits t true
      | t => expDigits t false
    else none

/-- Kernel-reducible power of ten over the rationals. -/
def qpow10 : ℕ → ℚ
  | 0 => 1
  | n + 1 => 10 * qpow10 n

/-- Kernel-reducible signed power of ten over the rationals. -/
def pow10z (ex : ℤ) : ℚ :=
  if 0 ≤ ex then qpow10 ex.toNat else 1 / qpow10 (-ex).toNat

/-- Unsigned decimal literal `digitpart ["." [digitpart]] [exponent]` or `"." digitpart [exponent]`. -/
def numericVal (s : Chars) : Option ℚ :=
  let r1 := digitRun 0 0 s
  match r1.2.2 with
  | '.' :: r2 =>
    let r3 := digitRun 0 0 r2
    if r1.2.1 = 0 && r3.2.1 = 0 then none
    else
      match expPart r3.2.2 with
      | some ex => some (((r1.1 : ℚ) + (r3.1 : ℚ) / qpow10 r3.2.1) * pow10z ex)
      | none => none
  | _ =>
    if r1.2.1 = 0 then none
    else
      match expPart r1.2.2 with
      | some ex => some ((r1.1 : ℚ) * pow10z ex)
      | none => none

/-- Case-insensitive comparison of the whole remaining input against a keyword. -/
def ciIs (s : Chars) (w : String) : Bool := lowerChars s = w.data

/-- Python `float(text)` on ASCII input: optional surrounding whitespace, optional sign, then `inf`/`infinity`/`nan` or a decimal literal.  `none` models a raised `ValueError`. -/
def parsePyFloat (s : Chars) : Option PyNum :=
  let s1 := stripWs s
  let p :=
    match s1 with
    | '+' :: r => (false, r)
    | '-' :: r => (true, r)
    | _ => (false, s1)
  let neg := p.1
  let s2 := p.2
  if ciIs s2 "inf" || ciIs s2 "infinity" then some (if neg then .ninf else .pinf)
  else if ciIs s2 "nan" then some .nan
  else
    match numericVal s2 with
    | some q => some (.fin (if neg then -q else q))
    | none => none

/-- Kernel-reducible floor of a rational. -/
def ratFloor (q : ℚ) : ℤ := q.num.fdiv q.den

/-- Round half-to-even to an integer: the idealisation of Python `round` over the exact-rational embedding. -/
def roundHE (q : ℚ) : ℤ :=
  let f := ratFloor q
  let frac := q - f
  if frac < 1 / 2 then f
  else if 1 / 2 < frac then f + 1
  else if f % 2 = 0 then f else f + 1

/-- Python `round(x, 2)` idealised over exact rationals with banker's rounding. -/
def round2 (q : ℚ) : ℚ := (roundHE (q * 100) : ℚ) / 100

/-- main_en.py lines 68..86: `diff = target - entry; val = diff * lots * 100`; the value is negated for a `short` position (case-insensitively) and then rounded to 2 decimal places. -/
def calculate_pnl_value (entry target lots : ℚ) (trade_type : Chars) : ℚ :=
  let diff := target - entry
  let val := diff * lots * 100
  let val2 := if lowerChars trade_type = chars "short" then -val else val
  round2 val2

/-- main_en.py lines 89..102: percentage impact of a PnL value on a balance; defined as 0 when the balance is 0. -/
def calculate_balance_percent (balance pnl : ℚ) : ℚ :=
  if balance = 0 then 0 else pnl / balance * 100

/-- One row of the `calcbalances` table (a persisted trade).  The Python column `type` is named `ttype` here; `totalbalance` holds the per-leg raw PnL values (`raw_pnls`). -/
structure TradeRow where
  id : ℤ
  currency : Chars
  lots : ℚ
  losses : List ℚ
  gains : List ℚ
  entrytarget : List ℚ
  takeprofittarget : List ℚ
  stoploss : ℚ
  ttype : Chars
  totalbalance : List ℚ
deriving DecidableEq

/-- One row of the `balances` table (one day's snapshot for one user).  `forIds` is the linked-trade id list. -/
structure BalanceRow where
  id : ℤ
  forIds : List ℤ
  balance : ℚ
  day : ℤ
  userid : ℤ
deriving DecidableEq

/-- The persistent store: both tables plus the next value of each BIGSERIAL id sequence. -/
structure Db where
  calcbalances : List TradeRow
  balances : List BalanceRow
  nextTradeId : ℤ
  nextBalanceId : ℤ
deriving DecidableEq

/-- A database with empty tables and both id sequences at 1. -/
def emptyDb : Db := { calcbalances := [], balances := [], nextTradeId := 1, nextBalanceId := 1 }

/-- The WHERE clause `"day" = today AND userid = uid` used on the `balances` table. -/
def balRowMatches (today uid : ℤ) (b : BalanceRow) : Bool :=
  b.day = today && b.userid = uid

/-- `INSERT INTO balances(balance, "day", userid) VALUES (bal, today, uid)` — `forIds` starts NULL (modelled as `[]`). -/
def insertBalance (db : Db) (bal : ℚ) (today uid : ℤ) : Db :=
  { db with
    balances := db.balances ++
      [{ id := db.nextBalanceId, forIds := [], balance := bal, day := today, userid := uid }],
    nextBalanceId := db.nextBalanceId + 1 }

/-- The accumulated per-trade dict `user_states[chat_id]["data"]`; absent keys are `none`/`[]`. -/
structure TradeData where
  currency : Option Chars := none
  balance : Option ℚ := none
  lots : Option ℚ := none
  ttype : Option Chars := none
  entry_targets : List ℚ := []
  tp_targets : List ℚ := []
  sl : Option ℚ := none
deriving DecidableEq

/-- The `step` strings of the trade-entry flow (`flow_steps` in `message_handler`); the Python string `type` is the constructor `ttype`. -/
inductive Step where
  | currency
  | balance
  | lots
  | ttype
  | entry1
  | entry2_q
  | entry2
  | tp1
  | tp2_q
  | tp2
  | sl
deriving DecidableEq

/-- The per-user `user_states[chat_id]` dict: current step, accumulated trade data and the weekly selection-token map. -/
structure SessionData where
  step : Option Step := none
  data : TradeData := {}
  weeklyMap : List (Chars × List ℤ) := []
deriving DecidableEq

/-- `user_states[chat_id] = {"step": "currency", "data": {}}` as set by the `newReport` callback (main_en.py line 362). -/
def newReportSession : SessionData :=
  { step := some .currency, data := {}, weeklyMap := [] }

/-- Mutable accumulators of the terminal-step loop: `profits`, `losses`, `raw_pnls`, `total_pnl`. -/
structure SlAcc where
  profits : List ℚ
  losses : List ℚ
  raws : List ℚ
  total : ℚ
deriving DecidableEq

/-- The `for i in range(len(entries))` loop of the terminal step (main_en.py lines 1044..1063): each iteration re-reads the day's balance row, computes the leg PnL and percentage, and appends to the accumulators.  `.error ()` models an exception (empty `tps` at `tps[-1]`, a missing balance row at `brow[1]`, or an empty loop leaving `base_balance`/`bal_id` unbound). -/
def slLoopGo (db : Db) (today uid : ℤ) (lots : ℚ) (ttype : Chars) (tps : List ℚ) :
    List ℚ → ℕ → SlAcc → Option (ℚ × ℤ) → Except Unit (SlAcc × ℚ × ℤ)
  | [], _, acc, lastB =>
    match lastB with
    | none => .error ()
    | some (b, bid) => .ok (acc, b, bid)
  | ent :: rest, i, acc, _ =>
    let tp? : Except Unit ℚ :=
      if i < tps.length then .ok (tps.getD i 0)
      else
        match tps.getLast? with
        | some x => .ok x
        | none => .error ()
    match tp? with
    | .error e => .error e
    | .ok tp =>
      let val := calculate_pnl_value ent tp lots ttype
      match db.balances.find? (balRowMatches today uid) with
      | none => .error ()
      | some brow =>
        let pct := calculate_balance_percent brow.balance val
        slLoopGo db today uid lots ttype tps rest (i + 1)
          { profits := if 0 ≤ val then acc.profits ++ [pct] else acc.profits
            losses := if 0 ≤ val then acc.losses else acc.losses ++ [pct]
            raws := acc.raws ++ [val]
            total := acc.total + val }
          (some (brow.balance, brow.id))

/-- The terminal `sl` step after a successful numeric parse (main_en.py lines 1029..1101): run the leg loop, `INSERT INTO calcbalances ... RETURNING id`, then `UPDATE balances SET balance = base + total, forIds = array_append(...)`.  On `.error` the transaction is never committed, so the store is unchanged. -/
def slRun (db : Db) (today uid : ℤ) (data : TradeData) : Except Unit (Db × ℚ × ℚ) :=
  match data.currency, data.lots, data.ttype, data.sl with
  | some curr, some lots, some ttype, some slv =>
    match slLoopGo db today uid lots ttype data.tp_targets data.entry_targets 0
        ⟨[], [], [], 0⟩ none with
    | .error e => .error e
    | .ok (acc, base, balId) =>
      let newId := db.nextTradeId
      let trade : TradeRow :=
        { id := newId, currency := curr, lots := lots, losses := acc.losses,
          gains := acc.profits, entrytarget := data.entry_targets,
          takeprofittarget := data.tp_targets, stoploss := slv, ttype := ttype,
          totalbalance := acc.raws }
      let newBalance := base + acc.total
      let db' : Db :=
        { db with
          calcbalances := db.calcbalances ++ [trade],
          nextTradeId := db.nextTradeId + 1,
          balances := db.balances.map (fun b =>
            if b.id = balId then
              { b with balance := newBalance, forIds := b.forIds ++ [newId] }
            else b) }
      .ok (db', acc.total, newBalance)
  | _, _, _, _ => .error ()

/-- Result of one call of `message_handler`: the user's session entry, the store, the texts sent back, and how many persistence transactions were attempted at the terminal step. -/
structure HandlerResult where
  sess : Option SessionData
  db : Db
  msgs : List Chars
  attempts : ℕ
deriving DecidableEq

/-- Prompt texts sent after advancing to a step (`prompt_map`, main_en.py lines 1112..1122; the `balance` step has no entry there). -/
def promptFor : Step → List Chars
  | .lots => [chars "Lots amount:"]
  | .ttype => [chars "Position Type (Long/Short):"]
  | .entry1 => [chars "First Entry Target:"]
  | .entry2_q => [chars "Do you have a second entry? (Yes/No)"]
  | .entry2 => [chars "Second Entry Target:"]
  | .tp1 => [chars "First Take Profit Target:"]
  | .tp2_q => [chars "Do you have a second target? (Yes/No)"]
  | .tp2 => [chars "Second Take Profit Target:"]
  | .sl => [chars "Stop Loss:"]
  | _ => []

/-- The affirmative token set of the `entry2_q`/`tp2_q` gates. -/
def isYes (t : Chars) : Bool :=
  lowerChars t = chars "yes" || lowerChars t = chars "y" || lowerChars t = chars "بله"

/-- Central message handler / state machine (main_en.py lines 853..1131) for one user.  `slPersistFails` injects a collaborator I/O failure into the terminal-step transaction (caught by the generic `except`, which sends `Error saving.` and returns).  `⟨none, ...⟩` for the session models `chat_id not in user_states` and `del user_states[chat_id]`. -/
def messageHandler (slPersistFails : Bool) (today uid : ℤ)
    (sess? : Option SessionData) (db : Db) (raw : Chars) : HandlerResult :=
  let text := clean raw
  match sess? with
  | none => ⟨none, db, [], 0⟩
  | some sess =>
    match sess.step with
    | none => ⟨some sess, db, [], 0⟩
    | some st =>
      let data := sess.data
      match st with
      | .currency =>
        let data' := { data with currency := some text }
        let next : Step :=
          if db.balances.any (balRowMatches today uid) then .lots else .balance
        ⟨some { sess with step := some next, data := data' }, db, promptFor next, 0⟩
      | .balance =>
        match parsePyFloat text with
        | none => ⟨some sess, db, [chars "Enter a number."], 0⟩
        | some v =>
          let bal := pyToQ v
          let data' := { data with balance := some bal }
          let db' := insertBalance db bal today uid
          ⟨some { sess with step := some .lots, data := data' }, db', promptFor .lots, 0⟩
      | .lots =>
        match parsePyFloat text with
        | none => ⟨some sess, db, [chars "Enter a number."], 0⟩
        | some v =>
          ⟨some { sess with step := some .ttype, data := { data with lots := some (pyToQ v) } },
            db, promptFor .ttype, 0⟩
      | .ttype =>
        if lowerChars text = chars "long" || lowerChars text = chars "short" then
          ⟨some { sess with step := some .entry1, data := { data with ttype := some (lowerChars text) } },
            db, promptFor .entry1, 0⟩
        else ⟨some sess, db, [chars "Please send Long or Short"], 0⟩
      | .entry1 =>
        match parsePyFloat text with
        | none => ⟨some sess, db, [chars "Enter a number."], 0⟩
        | some v =>
          ⟨some { sess with step := some .entry2_q, data := { data with entry_targets := [pyToQ v] } },
            db, promptFor .entry2_q, 0⟩
      | .entry2_q =>
        let next : Step := if isYes text then .entry2 else .tp1
        ⟨some { sess with step := some next }, db, promptFor next, 0⟩
      | .entry2 =>
        match parsePyFloat text with
        | none => ⟨some sess, db, [chars "Enter a number."], 0⟩
        | some v =>
          let data' := { data with entry_targets := data.entry_targets ++ [pyToQ v] }
          ⟨some { sess with step := some .tp1, data := data' }, db, promptFor .tp1, 0⟩
      | .tp1 =>
        match parsePyFloat text with
        | none => ⟨some sess, db, [chars "Enter a number."], 0⟩
        | some v =>
          ⟨some { sess with step := some .tp2_q, data := { data with tp_targets := [pyToQ v] } },
            db, promptFor .tp2_q, 0⟩
      | .tp2_q =>
        let next : Step := if isYes text then .tp2 else .sl
        ⟨some { sess with step := some next }, db, promptFor next, 0⟩
      | .tp2 =>
        match parsePyFloat text with
        | none => ⟨some sess, db, [chars "Enter a number."], 0⟩
        | some v =>
          let data' := { data with tp_targets := data.tp_targets ++ [pyToQ v] }
          ⟨some { sess with step := some .sl, data := data' }, db, promptFor .sl, 0⟩
      | .sl =>
        match parsePyFloat text with
        | none => ⟨some sess, db, [chars "Error saving."], 0⟩
        | some v =>
          let data' := { data with sl := some (pyToQ v) }
          if slPersistFails then
            ⟨some { sess with data := data' }, db, [chars "Error saving."], 1⟩
          else
            match slRun db today uid data' with
            | .error _ => ⟨some { sess with data := data' }, db, [chars "Error saving."], 1⟩
            | .ok (db', _, _) => ⟨none, db', [chars "Saved."], 1⟩

/-- Feeds a list of inbound texts through `messageHandler` (persistence succeeding), threading session and store. -/
def runMessages (today uid : ℤ) (init : Option SessionData × Db) (msgs : List Chars) :
    Option SessionData × Db :=
  msgs.foldl (fun s m =>
    let r := messageHandler false today uid s.1 s.2 m
    (r.sess, r.db)) init

/-- Python `date.weekday()` (Monday = 0 .. Sunday = 6) of a proleptic-Gregorian ordinal; ordinal 1 is a Monday. -/
def pyWeekday (d : ℤ) : ℤ := (d - 1) % 7

/-- Week-bucket key of a date: `dobj - timedelta(days=(dobj.weekday() + 1) % 7)` (main_en.py line 529), i.e. the preceding (or same) Sunday. -/
def startWeek (d : ℤ) : ℤ := d - ((pyWeekday d + 1) % 7)

/-- Distinct week keys of a record list, sorted ascending (`sorted(weeks.items())`). -/
def weekKeys (raw : List (ℤ × ℤ)) : List ℤ :=
  List.insertionSort (· ≤ ·) ((raw.map (fun p => startWeek p.2)).dedup)

/-- `weekly_report` grouping (main_en.py lines 526..537): each `(recordId, date)` pair goes to the bucket keyed by its week start; buckets are emitted in ascending key order, members in input order. -/
def weeklyBuckets (raw : List (ℤ × ℤ)) : List (ℤ × List (ℤ × ℤ)) :=
  (weekKeys raw).map (fun k => (k, raw.filter (fun p => startWeek p.2 = k)))

/-- Python `min` over a nonempty integer list (0 on the empty list, which the code never reaches). -/
def listMin : List ℤ → ℤ
  | [] => 0
  | x :: xs => xs.foldl min x

/-- Python `max` over a nonempty integer list (0 on the empty list, which the code never reaches). -/
def listMax : List ℤ → ℤ
  | [] => 0
  | x :: xs => xs.foldl max x

/-- The week items handed to the keyboard: member ids plus the minimum and maximum member dates (main_en.py lines 533..537). -/
def weeklyItems (raw : List (ℤ × ℤ)) : List (List ℤ × ℤ × ℤ) :=
  (weeklyBuckets raw).map (fun b =>
    (b.2.map Prod.fst, listMin (b.2.map Prod.snd), listMax (b.2.map Prod.snd)))

/-- Per-leg PnL list as the report views recompute it, starting at index `i`: `tp = tps[i] if i < len(tps) else 0` (main_en.py lines 450..453, 590..592, 688..690). -/
def legValsGo (tps : List ℚ) (lots : ℚ) (ttype : Chars) : List ℚ → ℕ → List ℚ
  | [], _ => []
  | ent :: rest, i =>
    calculate_pnl_value ent (tps.getD i 0) lots ttype :: legValsGo tps lots ttype rest (i + 1)

/-- All leg PnL values the views recompute for one trade row. -/
def tradeLegVals (t : TradeRow) : List ℚ :=
  legValsGo t.takeprofittarget t.lots t.ttype t.entrytarget 0

/-- Per-leg PnL list as the terminal step computes it, starting at index `i`: `tp = tps[i] if i < len(tps) else tps[-1]` (main_en.py line 1046). -/
def legPnlsGo (tps : List ℚ) (lots : ℚ) (ttype : Chars) : List ℚ → ℕ → List ℚ
  | [], _ => []
  | ent :: rest, i =>
    calculate_pnl_value ent (if i < tps.length then tps.getD i 0 else tps.getLastD 0) lots ttype
      :: legPnlsGo tps lots ttype rest (i + 1)

/-- Modelled from the spec wording of C2: the pairing rule the claim asserts for the views, where an uncovered entry index reuses the LAST take-profit value (the rule the creation path at main_en.py line 1046 actually uses). -/
def specTradeLegVals (t : TradeRow) : List ℚ :=
  legPnlsGo t.takeprofittarget t.lots t.ttype t.entrytarget 0

/-- Per-leg PnL values of the terminal step (closed form of the loop in `slLoopGo`). -/
def legPnls (entries tps : List ℚ) (lots : ℚ) (ttype : Chars) : List ℚ :=
  legPnlsGo tps lots ttype entries 0

/-- The profit/loss accumulation of `weekly_chosen` (and, code-identically, `monthly_chosen` and the per-day totals of `daily_chosen`): `val >= 0` adds to profit, otherwise `abs(val)` adds to loss (main_en.py lines 585..596). -/
def weeklyChosenTotals (trades : List TradeRow) : ℚ × ℚ :=
  trades.foldl (fun acc t =>
    (tradeLegVals t).foldl (fun pl v =>
      if 0 ≤ v then (pl.1 + v, pl.2) else (pl.1, pl.2 + |v|)) acc) (0, 0)

/-- `delete_exec` (main_en.py lines 764..787): `DELETE FROM calcbalances WHERE id = tid` and `UPDATE balances SET forids = array_remove(forids, tid) WHERE tid = ANY(forids)`. -/
def delete_exec (db : Db) (tid : ℤ) : Db :=
  { db with
    calcbalances := db.calcbalances.filter (fun t => t.id ≠ tid),
    balances := db.balances.map (fun b =>
      if tid ∈ b.forIds then { b with forIds := b.forIds.filter (fun x => x ≠ tid) } else b) }

/-- Resolving a trade id against the `calcbalances` table. -/
def findTrade (db : Db) (tid : ℤ) : Option TradeRow :=
  db.calcbalances.find? (fun t => t.id = tid)

/-- Python dict `.get` over the `weekly_map` association list. -/
def lookupTok : List (Chars × List ℤ) → Chars → Option (List ℤ)
  | [], _ => none
  | (k, v) :: rest, tok => if k = tok then some v else lookupTok rest tok

/-- Token resolution of `weekly_chosen` (main_en.py line 556): `user_states[chat_id].get("weekly_map", {}).get(unique_key)`, with the `if not ids` falsiness test; a deleted session entry (`defaultdict` recreates `{}`) resolves nothing. -/
def resolveWeeklyToken (sess? : Option SessionData) (tok : Chars) : Option (List ℤ) :=
  match sess? with
  | none => none
  | some s =>
    match lookupTok s.weeklyMap tok with
    | none => none
    | some ids => if ids = [] then none else some ids

/-- Outcome of the `weekly_chosen` callback: either the expired-token prompt (`Information expired. Please try again.` followed by the main menu) or a report over the resolved day ids. -/
inductive WeeklyOutcome where
  | expiredPrompt
  | report (ids : List ℤ)
deriving DecidableEq

/-- `weekly_chosen` up to its fetch: resolve the token, degrade gracefully when it is gone (main_en.py lines 553..560). -/
def weeklyChosenOutcome (sess? : Option SessionData) (tok : Chars) : WeeklyOutcome :=
  match resolveWeeklyToken sess? tok with
  | none => .expiredPrompt
  | some ids => .report ids

/-- The `close` callback (main_en.py lines 336..350): `del user_states[chat_id]`. -/
def closeHandler (_sess? : Option SessionData) : Option SessionData := none

/-- The numeric steps of the flow named by C3. -/
def isNumericStep : Step → Bool
  | .balance | .lots | .entry1 | .entry2 | .tp1 | .tp2 | .sl => true
  | _ => false

/-- The text sent on a numeric-parse failure at a step: the generic `except` of the terminal step sends `Error saving.`, every other numeric step sends `Enter a number.`. -/
def numErrMsg (st : Step) : Chars :=
  if st = Step.sl then chars "Error saving." else chars "Enter a number."

/-- Example store: one daily balance row (day 100, user 7, balance 1000) and empty trade table. -/
def exDb : Db :=
  { calcbalances := [],
    balances := [{ id := 1, forIds := [], balance := 1000, day := 100, userid := 7 }],
    nextTradeId := 1, nextBalanceId := 2 }

/-- Example session sitting at the terminal `sl` step with one entry (1) and one take-profit (2), lots 1, long. -/
def exSlSess : SessionData :=
  { step := some .sl,
    data := { currency := some (chars "EURUSD"), balance := none, lots := some 1,
              ttype := some (chars "long"), entry_targets := [1], tp_targets := [2],
              sl := none },
    weeklyMap := [] }

/-- C2 failing input: a long trade with two entries `[1, 2]` but a single take-profit `[3]`, lots 1. -/
def c2trade : TradeRow :=
  { id := 1, currency := chars "EURUSD", lots := 1, losses := [], gains := [],
    entrytarget := [1, 2], takeprofittarget := [3], stoploss := 0,
    ttype := chars "long", totalbalance := [] }

/-- The C5 end-to-end input transcript. -/
def c5inputs : List Chars :=
  [chars "EURUSD", chars "1000", chars "1", chars "long", chars "1.10", chars "No",
   chars "1.12", chars "No", chars "1.08"]

/-- The C5 end-to-end run: a fresh session (`newReport`) over an empty store, day 738900, user 7. -/
def c5run : Option SessionData × Db :=
  runMessages 738900 7 (some newReportSession, emptyDb) c5inputs

/-- The trade row the C5 run is expected to persist. -/
def c5trade : TradeRow :=
  { id := 1, currency := chars "EURUSD", lots := 1, losses := [], gains := [1 / 5],
    entrytarget := [11 / 10], takeprofittarget := [28 / 25], stoploss := 27 / 25,
    ttype := chars "long", totalbalance := [2] }

/-- The daily balance row the C5 run is expected to leave. -/
def c5balRow : BalanceRow :=
  { id := 1, forIds := [1], balance := 1002, day := 738900, userid := 7 }

/-- Trade data for the C9 witness: entries `[1, 2]`, a single take-profit `[3]`, lots 1, long. -/
def c9data : TradeData :=
  { currency := some (chars "EURUSD"), balance := none, lots := some 1,
    ttype := some (chars "long"), entry_targets := [1, 2], tp_targets := [3],
    sl := some (1 / 2) }

/-- Store for the C8 witness: two trades; trade 1 linked on row 1, trade 2 linked on both rows. -/
def c8db : Db :=
  { calcbalances :=
      [{ id := 1, currency := chars "A", lots := 1, losses := [], gains := [],
         entrytarget := [1], takeprofittarget := [1], stoploss := 0,
         ttype := chars "long", totalbalance := [0] },
       { id := 2, currency := chars "B", lots := 1, losses := [], gains := [],
         entrytarget := [1], takeprofittarget := [1], stoploss := 0,
         ttype := chars "long", totalbalance := [0] }],
    balances :=
      [{ id := 1, forIds := [1, 2], balance := 500, day := 100, userid := 7 },
       { id := 2, forIds := [2], balance := 600, day := 101, userid := 7 }],
    nextTradeId := 3, nextBalanceId := 3 }

/-- The first balance row of `c8db` as it must look after trade 1 is deleted. -/
def c8RowAfter : BalanceRow := { id := 1, forIds := [2], balance := 500, day := 100, userid := 7 }

/-- C1: for direction `long` (case-insensitively) the PnL equals `round((target - entry) * lots * 100, 2)`; for `short` the same quantity is negated before rounding; the function is a pure total Lean function and `entry = target` yields 0 for every direction. -/
theorem c1_pnl_value (entry target lots : ℚ) (dir : Chars) :
    (lowerChars dir = chars "long" →
      calculate_pnl_value entry target lots dir = round2 ((target - entry) * lots * 100))
    ∧ (lowerChars dir = chars "short" →
      calculate_pnl_value entry target lots dir = round2 (-((target - entry) * lots * 100)))
    ∧ calculate_pnl_value entry entry lots dir = 0 := by
  refine ⟨?_, ?_, ?_⟩
  · intro h
    simp only [calculate_pnl_value, h]
    rw [if_neg (by decide)]
  · intro h
    simp [calculate_pnl_value, h]
  · have hz : round2 0 = 0 := by decide
    by_cases h : lowerChars dir = chars "short" <;>
      simp [calculate_pnl_value, h, sub_self, zero_mul, neg_zero, hz]

/-- C1 witness: at entry 1.1, target 1.12, lots 1 with direction written `Long`, the hypothesis of the long branch holds and the formula applies. -/
theorem c1_pnl_value_witness :
    lowerChars (chars "Long") = chars "long"
    ∧ calculate_pnl_value (11 / 10) (28 / 25) 1 (chars "Long")
        = round2 ((28 / 25 - 11 / 10) * 1 * 100) :=
  ⟨by decide, (c1_pnl_value (11 / 10) (28 / 25) 1 (chars "Long")).1 (by decide)⟩

/-- C3: at every numeric step of the flow (balance, lots, entry1, entry2, tp1, tp2, sl), an input whose cleaned text does not parse as a number leaves the session entry (current step and accumulated trade data) and the store unchanged and sends exactly the re-prompt text of that step. -/
theorem c3_numeric_failure_preserves_state (pf : Bool) (today uid : ℤ) (sess : SessionData)
    (db : Db) (raw : Chars) (st : Step) (hst : sess.step = some st)
    (hnum : isNumericStep st = true) (hparse : parsePyFloat (clean raw) = none) :
    messageHandler pf today uid (some sess) db raw = ⟨some sess, db, [numErrMsg st], 0⟩ := by
  obtain ⟨step?, data, wm⟩ := sess
  simp only [SessionData.step] at hst
  subst hst
  cases st <;> simp_all [messageHandler, isNumericStep, numErrMsg]

/-- C3 witness: at the `sl` step with input `abc` (which does not parse), the session, data and store are unchanged and the generic error text is sent. -/
theorem c3_numeric_failure_witness :
    exSlSess.step = some Step.sl
    ∧ isNumericStep Step.sl = true
    ∧ parsePyFloat (clean (chars "abc")) = none
    ∧ messageHandler false 100 7 (some exSlSess) exDb (chars "abc")
        = ⟨some exSlSess, exDb, [numErrMsg Step.sl], 0⟩ :=
  ⟨rfl, rfl, by decide,
    c3_numeric_failure_preserves_state false 100 7 exSlSess exDb (chars "abc") Step.sl rfl
      (by decide) (by decide)⟩

/-- C10: every inbound text is stripped and has all percent signs removed before any step logic, so the cleaned text never contains a percent sign; `50%` parses as the number 50 and is accepted at every numeric step (balance, lots, entry1, entry2, tp1, tp2, sl) as 50.0; a currency name containing a percent sign is stored with those characters removed. -/
theorem c10_percent_removed_before_validation (s : Chars) (today uid : ℤ)
    (sess : SessionData) (db : Db) :
    '%' ∉ clean s
    ∧ parsePyFloat (clean (chars "  50%  ")) = some (.fin 50)
    ∧ ((messageHandler false today uid (some { sess with step := some Step.currency }) db
          (chars "EUR%USD")).sess.map fun s2 => s2.data.currency)
        = some (some (chars "EURUSD"))
    ∧ messageHandler false today uid (some { sess with step := some Step.balance }) db
          (chars "50%")
        = ⟨some { sess with
              step := some Step.lots
              data := { sess.data with balance := some 50 } },
            insertBalance db 50 today uid, promptFor Step.lots, 0⟩
    ∧ messageHandler false today uid (some { sess with step := some Step.lots }) db
          (chars "50%")
        = ⟨some { sess with
              step := some Step.ttype
              data := { sess.data with lots := some 50 } },
            db, promptFor Step.ttype, 0⟩
    ∧ messageHandler false today uid (some { sess with step := some Step.entry1 }) db
          (chars "50%")
        = ⟨some { sess with
              step := some Step.entry2_q
              data := { sess.data with entry_targets := [50] } },
            db, promptFor Step.entry2_q, 0⟩
    ∧ messageHandler false today uid (some { sess with step := some Step.entry2 }) db
          (chars "50%")
        = ⟨some { sess with
              step := some Step.tp1
              data := { sess.data with entry_targets := sess.data.entry_targets ++ [50] } },
            db, promptFor Step.tp1, 0⟩
    ∧ messageHandler false today uid (some { sess with step := some Step.tp1 }) db
          (chars "50%")
        = ⟨some { sess with
              step := some Step.tp2_q
              data := { sess.data with tp_targets := [50] } },
            db, promptFor Step.tp2_q, 0⟩
    ∧ messageHandler false today uid (some { sess with step := some Step.tp2 }) db
          (chars "50%")
        = ⟨some { sess with
              step := some Step.sl
              data := { sess.data with tp_targets := sess.data.tp_targets ++ [50] } },
            db, promptFor Step.sl, 0⟩
    ∧ ((messageHandler false 100 7 (some exSlSess) exDb (chars "50%")).db.calcbalances.map
          fun t => t.stoploss) = [50] := by
  refine ⟨?_, by decide, rfl, rfl, rfl, rfl, rfl, rfl, rfl, by decide⟩
  intro h
  simp [clean, removePct, List.mem_filter] at h

/-- C7 counterexample: with persistence failing at the `sl` step on input `1.5`, the session entry is NOT left untouched — the accumulated trade data now holds the parsed stop-loss — refuting the claim that `partialTradeData` is unchanged. -/
theorem c7_counterexample :
    (messageHandler true 100 7 (some exSlSess) exDb (chars "1.5")).sess ≠ some exSlSess
    ∧ (messageHandler true 100 7 (some exSlSess) exDb (chars "1.5")).sess
        = some { exSlSess with data := { exSlSess.data with sl := some (3 / 2) } } :=
  ⟨by decide, by decide⟩

/-- C7 (amended): if the persistence collaborator fails during the terminal `sl` step, the failure is surfaced as the generic `Error saving.` message, exactly one transaction is attempted (no retry), the store is unchanged, and the session keeps `currentStep = sl` with its trade data unchanged except that the stop-loss field now holds the parsed value, so the user may retry the step. -/
theorem c7_persist_failure_amended (today uid : ℤ) (sess : SessionData) (db : Db)
    (raw : Chars) (v : PyNum) (hst : sess.step = some Step.sl)
    (hparse : parsePyFloat (clean raw) = some v) :
    messageHandler true today uid (some sess) db raw
      = ⟨some { sess with data := { sess.data with sl := some (pyToQ v) } }, db,
          [chars "Error saving."], 1⟩ := by
  obtain ⟨step?, data, wm⟩ := sess
  simp only [SessionData.step] at hst
  subst hst
  simp [messageHandler, hparse]

/-- C7 witness: the amended statement applied at the example session and store with input `1.5`. -/
theorem c7_persist_failure_witness :
    exSlSess.step = some Step.sl
    ∧ parsePyFloat (clean (chars "1.5")) = some (.fin (3 / 2))
    ∧ messageHandler true 100 7 (some exSlSess) exDb (chars "1.5")
        = ⟨some { exSlSess with data := { exSlSess.data with sl := some (pyToQ (.fin (3 / 2))) } },
            exDb, [chars "Error saving."], 1⟩ :=
  ⟨rfl, by decide,
    c7_persist_failure_amended 100 7 exSlSess exDb (chars "1.5") (.fin (3 / 2)) rfl (by decide)⟩

/-- C5 counterexample: running the claimed transcript, the persisted per-leg realized PnL list is `[2.00]`, not the `[200.00]` the claim states. -/
theorem c5_realized_pnl_counterexample :
    (c5run.2.calcbalances.map fun t => t.totalbalance) = [[2]]
    ∧ ¬ (c5run.2.calcbalances.map fun t => t.totalbalance) = [[200]] :=
  ⟨by decide, by decide⟩

/-- C5 (amended): the end-to-end run with currency EURUSD, balance 1000, lots 1, long, entry 1.10, no second entry, target 1.12, no second target, stop 1.08 stores a trade with entryTargets `[1.10]`, takeProfitTargets `[1.12]`, realizedPnlPerLeg `[2.00]`, leaves the daily balance at `1002.00`, and clears the session. -/
theorem c5_end_to_end :
    c5run = (none,
      { calcbalances := [c5trade], balances := [c5balRow], nextTradeId := 2, nextBalanceId := 2 }) := by
  decide

/-- C6: after the session is reset or replaced — `close` deletes the entry, flow completion deletes it, starting a new flow installs a fresh session without a token map — resolving any previously issued selection token yields NotFound (`none`), and `weekly_chosen` degrades to the retry prompt instead of serving a stale payload or crashing. -/
theorem c6_stale_tokens (sess? : Option SessionData) (tok : Chars) :
    resolveWeeklyToken (closeHandler sess?) tok = none
    ∧ resolveWeeklyToken none tok = none
    ∧ resolveWeeklyToken (some newReportSession) tok = none
    ∧ weeklyChosenOutcome (closeHandler sess?) tok = .expiredPrompt
    ∧ weeklyChosenOutcome (some newReportSession) tok = .expiredPrompt :=
  ⟨rfl, rfl, rfl, rfl, rfl⟩

/-- C2: at the failing input (entries `[1, 2]`, a single take-profit `[3]`, lots 1, long) the week view recomputes the uncovered second leg against a take-profit of 0, yielding `[200, -200]` and totals (profit 200, loss 200), whereas the claimed last-value pairing — the rule the creation path itself uses — yields `[200, 100]` and would give totals (300, 0): the views diverge from the claim and from the stored per-leg PnL. -/
theorem c2_view_pairs_uncovered_with_zero :
    tradeLegVals c2trade = [200, -200]
    ∧ specTradeLegVals c2trade = [200, 100]
    ∧ tradeLegVals c2trade ≠ specTradeLegVals c2trade
    ∧ weeklyChosenTotals [c2trade] = (200, 200) :=
  ⟨by decide, by decide, by decide, by decide⟩

/-- C8: deleting a trade id removes it from trade storage (it can no longer be resolved), removes the id from the link list of exactly the balance rows that contained it, keeps the row count, preserves every other field of every row (id, balance, day, userid), leaves rows that did not contain the id entirely unchanged, and deletes no other trade. -/
theorem c8_delete_frame (db : Db) (tid : ℤ) :
    findTrade (delete_exec db tid) tid = none
    ∧ (∀ b ∈ (delete_exec db tid).balances, tid ∉ b.forIds)
    ∧ (delete_exec db tid).balances.length = db.balances.length
    ∧ (∀ i b b', db.balances.get? i = some b →
        (delete_exec db tid).balances.get? i = some b' →
        b'.id = b.id ∧ b'.balance = b.balance ∧ b'.day = b.day ∧ b'.userid = b.userid
        ∧ b'.forIds = b.forIds.filter (fun x => x ≠ tid)
        ∧ (tid ∉ b.forIds → b' = b))
    ∧ (∀ t ∈ db.calcbalances, t.id ≠ tid → t ∈ (delete_exec db tid).calcbalances)
    ∧ (∀ t ∈ (delete_exec db tid).calcbalances, t ∈ db.calcbalances) := by
  refine ⟨?_, ?_, ?_, ?_, ?_, ?_⟩
  · rw [findTrade, List.find?_eq_none]
    intro t ht
    have h := List.of_mem_filter ht
    simpa using h
  · intro b hb
    obtain ⟨a, _, rfl⟩ := List.mem_map.mp hb
    by_cases h : tid ∈ a.forIds
    · simp only [h, if_true]
      intro hmem
      have h2 := List.of_mem_filter hmem
      simp at h2
    · simp [h]
  · simp [delete_exec]
  · intro i b b' hb hb'
    have hmap : (delete_exec db tid).balances.get? i
        = (db.balances.get? i).map (fun a =>
            if tid ∈ a.forIds then { a with forIds := a.forIds.filter (fun x => x ≠ tid) } else a) :=
      List.get?_map _ _ i
    rw [hmap, hb] at hb'
    have hb2 : (if tid ∈ b.forIds then
        { b with forIds := b.forIds.filter (fun x => x ≠ tid) } else b) = b' := by
      simpa using hb'
    subst hb2
    by_cases h : tid ∈ b.forIds
    · refine ⟨by simp [h], by simp [h], by simp [h], by simp [h], by simp [h], ?_⟩
      intro hno
      exact absurd h hno
    · have hfix : b.forIds.filter (fun x => x ≠ tid) = b.forIds := by
        rw [List.filter_eq_self]
        intro a ha
        simp only [decide_eq_true_eq]
        intro heq
        exact h (heq ▸ ha)
      refine ⟨by simp [h], by simp [h], by simp [h], by simp [h],
        by rw [if_neg h]; exact hfix.symm, ?_⟩
      intro _
      simp [h]
  · intro t ht hne
    exact List.mem_filter.mpr ⟨ht, by simpa using hne⟩
  · intro t ht
    exact (List.mem_filter.mp ht).1

/-- C8 witness: deleting trade 1 from the example store — it is no longer resolvable, and the row that contained it now links only trade 2. -/
theorem c8_delete_witness :
    findTrade (delete_exec c8db 1) 1 = none
    ∧ c8RowAfter ∈ (delete_exec c8db 1).balances
    ∧ (1 : ℤ) ∉ c8RowAfter.forIds :=
  ⟨(c8_delete_frame c8db 1).1, by decide,
    (c8_delete_frame c8db 1).2.1 c8RowAfter (by decide)⟩

theorem foldlMin_le_init (xs : List ℤ) : ∀ a : ℤ, xs.foldl min a ≤ a := by
  induction xs with
  | nil => intro a; exact le_refl a
  | cons x xs ih =>
    intro a
    exact le_trans (ih (min a x)) (min_le_left a x)

theorem foldlMin_le_mem (xs : List ℤ) : ∀ a y, y ∈ xs → xs.foldl min a ≤ y := by
  induction xs with
  | nil => intro a y hy; cases hy
  | cons x xs ih =>
    intro a y hy
    rcases List.mem_cons.mp hy with h | h
    · subst h
      exact le_trans (foldlMin_le_init xs (min a y)) (min_le_right a y)
    · exact ih (min a x) y h

theorem foldlMin_mem (xs : List ℤ) : ∀ a, xs.foldl min a = a ∨ xs.foldl min a ∈ xs := by
  induction xs with
  | nil => intro a; exact Or.inl rfl
  | cons x xs ih =>
    intro a
    rcases ih (min a x) with h | h
    · rcases min_choice a x with hm | hm
      · exact Or.inl (by rw [List.foldl_cons, h, hm])
      · exact Or.inr (by rw [List.foldl_cons, h, hm]; exact List.mem_cons_self x xs)
    · exact Or.inr (List.mem_cons_of_mem x h)

theorem foldlMax_init_le (xs : List ℤ) : ∀ a : ℤ, a ≤ xs.foldl max a := by
  induction xs with
  | nil => intro a; exact le_refl a
  | cons x xs ih =>
    intro a
    exact le_trans (le_max_left a x) (ih (max a x))

theorem foldlMax_mem_le (xs : List ℤ) : ∀ a y, y ∈ xs → y ≤ xs.foldl max a := by
  induction xs with
  | nil => intro a y hy; cases hy
  | cons x xs ih =>
    intro a y hy
    rcases List.mem_cons.mp hy with h | h
    · subst h
      exact le_trans (le_max_right a y) (foldlMax_init_le xs (max a y))
    · exact ih (max a x) y h

theorem foldlMax_mem (xs : List ℤ) : ∀ a, xs.foldl max a = a ∨ xs.foldl max a ∈ xs := by
  induction xs with
  | nil => intro a; exact Or.inl rfl
  | cons x xs ih =>
    intro a
    rcases ih (max a x) with h | h
    · rcases max_choice a x with hm | hm
      · exact Or.inl (by rw [List.foldl_cons, h, hm])
      · exact Or.inr (by rw [List.foldl_cons, h, hm]; exact List.mem_cons_self x xs)
    · exact Or.inr (List.mem_cons_of_mem x h)

theorem listMin_spec (l : List ℤ) (h : l ≠ []) :
    listMin l ∈ l ∧ ∀ y ∈ l, listMin l ≤ y := by
  cases l with
  | nil => exact absurd rfl h
  | cons x xs =>
    constructor
    · rcases foldlMin_mem xs x with h2 | h2
      · rw [listMin, h2]; exact List.mem_cons_self x xs
      · exact List.mem_cons_of_mem x (by rw [listMin]; exact h2)
    · intro y hy
      rcases List.mem_cons.mp hy with h2 | h2
      · subst h2; exact foldlMin_le_init xs y
      · exact foldlMin_le_mem xs x y h2

theorem listMax_spec (l : List ℤ) (h : l ≠ []) :
    listMax l ∈ l ∧ ∀ y ∈ l, y ≤ listMax l := by
  cases l with
  | nil => exact absurd rfl h
  | cons x xs =>
    constructor
    · rcases foldlMax_mem xs x with h2 | h2
      · rw [listMax, h2]; exact List.mem_cons_self x xs
      · exact List.mem_cons_of_mem x (by rw [listMax]; exact h2)
    · intro y hy
      rcases List.mem_cons.mp hy with h2 | h2
      · subst h2; exact foldlMax_init_le xs y
      · exact foldlMax_mem_le xs x y h2

theorem mem_weekKeys (raw : List (ℤ × ℤ)) (k : ℤ) :
    k ∈ weekKeys raw ↔ ∃ p ∈ raw, startWeek p.2 = k := by
  rw [weekKeys, (List.perm_insertionSort _ _).mem_iff, List.mem_dedup, List.mem_map]

theorem nodup_weekKeys (raw : List (ℤ × ℤ)) : (weekKeys raw).Nodup :=
  ((List.perm_insertionSort _ _).nodup_iff).mpr (List.nodup_dedup _)

theorem sorted_weekKeys (raw : List (ℤ × ℤ)) : List.Sorted (· ≤ ·) (weekKeys raw) :=
  List.sorted_insertionSort _ _

theorem bucket_keys_eq (raw : List (ℤ × ℤ)) :
    (weeklyBuckets raw).map Prod.fst = weekKeys raw := by
  rw [weeklyBuckets, List.map_map]
  exact List.map_id _

/-- C4: every input record lands in exactly one week bucket, whose key is `date - ((weekday(date) + 1) % 7)` days; bucket keys are strictly ascending; every bucket member comes from the input and matches the bucket key; each bucket is nonempty and exposes the minimum and maximum member dates; and bucketing is deterministic, so bucketing the same records twice yields identical keys and membership. -/
theorem c4_week_bucketing (raw : List (ℤ × ℤ)) (p : ℤ × ℤ) (hp : p ∈ raw) :
    (∃ b, b ∈ weeklyBuckets raw ∧ p ∈ b.2
      ∧ b.1 = p.2 - ((pyWeekday p.2 + 1) % 7)
      ∧ ∀ b2, b2 ∈ weeklyBuckets raw → p ∈ b2.2 → b2 = b)
    ∧ List.Sorted (· < ·) ((weeklyBuckets raw).map Prod.fst)
    ∧ (∀ b ∈ weeklyBuckets raw, ∀ q ∈ b.2, q ∈ raw ∧ startWeek q.2 = b.1)
    ∧ (∀ b ∈ weeklyBuckets raw, b.2 ≠ []
        ∧ listMin (b.2.map Prod.snd) ∈ b.2.map Prod.snd
        ∧ listMax (b.2.map Prod.snd) ∈ b.2.map Prod.snd
        ∧ ∀ q ∈ b.2, listMin (b.2.map Prod.snd) ≤ q.2 ∧ q.2 ≤ listMax (b.2.map Prod.snd))
    ∧ weeklyBuckets raw = weeklyBuckets raw := by
  have hmem_bucket : ∀ b ∈ weeklyBuckets raw, ∀ q ∈ b.2, q ∈ raw ∧ startWeek q.2 = b.1 := by
    intro b hb q hq
    obtain ⟨k2, _, rfl⟩ := List.mem_map.mp hb
    have h2 := List.mem_filter.mp hq
    exact ⟨h2.1, by simpa using h2.2⟩
  refine ⟨?_, ?_, hmem_bucket, ?_, rfl⟩
  · refine ⟨(startWeek p.2, raw.filter (fun q => startWeek q.2 = startWeek p.2)), ?_, ?_, rfl, ?_⟩
    · exact List.mem_map_of_mem _ ((mem_weekKeys raw (startWeek p.2)).mpr ⟨p, hp, rfl⟩)
    · exact List.mem_filter.mpr ⟨hp, by simp⟩
    · intro b2 hb2 hpb2
      obtain ⟨k2, _, rfl⟩ := List.mem_map.mp hb2
      have h2 := List.mem_filter.mp hpb2
      have hk : startWeek p.2 = k2 := by simpa using h2.2
      rw [← hk]
  · rw [bucket_keys_eq]
    exact (sorted_weekKeys raw).lt_of_le (nodup_weekKeys raw)
  · intro b hb
    obtain ⟨k2, hk2, rfl⟩ := List.mem_map.mp hb
    obtain ⟨p2, hp2, hkp2⟩ := (mem_weekKeys raw k2).mp hk2
    have hmem : p2 ∈ raw.filter (fun q => startWeek q.2 = k2) :=
      List.mem_filter.mpr ⟨hp2, by simpa using hkp2⟩
    have hne : raw.filter (fun q => startWeek q.2 = k2) ≠ [] :=
      List.ne_nil_of_mem hmem
    have hmapne : (raw.filter (fun q => startWeek q.2 = k2)).map Prod.snd ≠ [] := by
      simpa using hne
    refine ⟨hne, (listMin_spec _ hmapne).1, (listMax_spec _ hmapne).1, ?_⟩
    intro q hq
    exact ⟨(listMin_spec _ hmapne).2 q.2 (List.mem_map_of_mem _ hq),
      (listMax_spec _ hmapne).2 q.2 (List.mem_map_of_mem _ hq)⟩

/-- C4 witness: records (1, day 10) and (2, day 11) — record 1 lies in exactly one bucket, keyed by the Sunday rule. -/
theorem c4_week_bucketing_witness :
    ((1 : ℤ), (10 : ℤ)) ∈ [((1 : ℤ), (10 : ℤ)), ((2 : ℤ), (11 : ℤ))]
    ∧ (∃ b, b ∈ weeklyBuckets [((1 : ℤ), (10 : ℤ)), ((2 : ℤ), (11 : ℤ))]
        ∧ ((1 : ℤ), (10 : ℤ)) ∈ b.2
        ∧ b.1 = 10 - ((pyWeekday 10 + 1) % 7)
        ∧ ∀ b2, b2 ∈ weeklyBuckets [((1 : ℤ), (10 : ℤ)), ((2 : ℤ), (11 : ℤ))]
            → ((1 : ℤ), (10 : ℤ)) ∈ b2.2 → b2 = b) :=
  ⟨by decide,
    (c4_week_bucketing [((1 : ℤ), (10 : ℤ)), ((2 : ℤ), (11 : ℤ))] ((1 : ℤ), (10 : ℤ))
      (by decide)).1⟩

theorem getLast?_eq_getLastD {α : Type} (l : List α) (d : α) (h : l ≠ []) :
    l.getLast? = some (l.getLastD d) := by
  induction l with
  | nil => exact absurd rfl h
  | cons x xs ih =>
    cases xs with
    | nil => rfl
    | cons y ys =>
      rw [List.getLast?_cons_cons, List.getLastD_cons]
      exact ih (by simp)

theorem legPnlsGo_cons (tps : List ℚ) (lots : ℚ) (ttype : Chars) (ent : ℚ) (rest : List ℚ)
    (i : ℕ) :
    legPnlsGo tps lots ttype (ent :: rest) i
      = calculate_pnl_value ent (if i < tps.length then tps.getD i 0 else tps.getLastD 0)
          lots ttype :: legPnlsGo tps lots ttype rest (i + 1) := rfl

theorem legPnlsGo_nil (tps : List ℚ) (lots : ℚ) (ttype : Chars) (i : ℕ) :
    legPnlsGo tps lots ttype [] i = [] := rfl

theorem slLoopGo_spec (db : Db) (today uid : ℤ) (lots : ℚ) (ttype : Chars)
    (tps : List ℚ) (brow : BalanceRow)
    (hfind : db.balances.find? (balRowMatches today uid) = some brow)
    (htps : tps ≠ []) :
    ∀ (entries : List ℚ) (i : ℕ) (acc : SlAcc) (lastB : Option (ℚ × ℤ)),
      entries ≠ [] →
      slLoopGo db today uid lots ttype tps entries i acc lastB
        = .ok
          ({ profits := acc.profits
              ++ ((legPnlsGo tps lots ttype entries i).filter (fun v => 0 ≤ v)).map
                  (calculate_balance_percent brow.balance),
             losses := acc.losses
              ++ ((legPnlsGo tps lots ttype entries i).filter (fun v => v < 0)).map
                  (calculate_balance_percent brow.balance),
             raws := acc.raws ++ legPnlsGo tps lots ttype entries i,
             total := acc.total + (legPnlsGo tps lots ttype entries i).sum },
           brow.balance, brow.id) := by
  intro entries
  induction entries with
  | nil => intro i acc lastB h; exact absurd rfl h
  | cons ent rest ih =>
    intro i acc lastB _
    have htp : ((if i < tps.length then Except.ok (tps.getD i 0)
        else
          match tps.getLast? with
          | some x => Except.ok x
          | none => Except.error ()) : Except Unit ℚ)
        = Except.ok (if i < tps.length then tps.getD i 0 else tps.getLastD 0) := by
      by_cases hi : i < tps.length
      · simp [hi]
      · rw [if_neg hi, if_neg hi, getLast?_eq_getLastD tps 0 htps]
    have hstep : slLoopGo db today uid lots ttype tps (ent :: rest) i acc lastB
        = slLoopGo db today uid lots ttype tps rest (i + 1)
            { profits :=
                if 0 ≤ calculate_pnl_value ent
                    (if i < tps.length then tps.getD i 0 else tps.getLastD 0) lots ttype then
                  acc.profits ++ [calculate_balance_percent brow.balance
                    (calculate_pnl_value ent
                      (if i < tps.length then tps.getD i 0 else tps.getLastD 0) lots ttype)]
                else acc.profits,
              losses :=
                if 0 ≤ calculate_pnl_value ent
                    (if i < tps.length then tps.getD i 0 else tps.getLastD 0) lots ttype then
                  acc.losses
                else acc.losses ++ [calculate_balance_percent brow.balance
                    (calculate_pnl_value ent
                      (if i < tps.length then tps.getD i 0 else tps.getLastD 0) lots ttype)],
              raws := acc.raws ++ [calculate_pnl_value ent
                  (if i < tps.length then tps.getD i 0 else tps.getLastD 0) lots ttype],
              total := acc.total + calculate_pnl_value ent
                  (if i < tps.length then tps.getD i 0 else tps.getLastD 0) lots ttype }
            (some (brow.balance, brow.id)) := by
      conv_lhs => rw [slLoopGo]
      simp only [htp, hfind]
    rw [hstep, legPnlsGo_cons]
    cases rest with
    | nil =>
      simp only [slLoopGo, legPnlsGo_nil]
      by_cases hv :
          0 ≤ calculate_pnl_value ent (if i < tps.length then tps.getD i 0 else tps.getLastD 0)
            lots ttype
      · simp only [List.filter_cons, List.filter_nil, decide_eq_true_eq, hv, not_lt.mpr hv,
          if_true, if_false, List.map_cons, List.map_nil, List.sum_cons, List.sum_nil,
          List.append_nil, add_zero]
      · simp only [List.filter_cons, List.filter_nil, decide_eq_true_eq, hv, not_le.mp hv,
          if_true, if_false, List.map_cons, List.map_nil, List.sum_cons, List.sum_nil,
          List.append_nil, add_zero]
    | cons r2 rest2 =>
      rw [ih (i + 1) _ _ (List.cons_ne_nil r2 rest2)]
      by_cases hv :
          0 ≤ calculate_pnl_value ent (if i < tps.length then tps.getD i 0 else tps.getLastD 0)
            lots ttype
      · simp only [List.filter_cons, decide_eq_true_eq, hv, not_lt.mpr hv, if_true, if_false,
          List.map_cons, List.sum_cons]
        simp [List.append_assoc, add_assoc]
      · simp only [List.filter_cons, decide_eq_true_eq, hv, not_le.mp hv, if_true, if_false,
          List.map_cons, List.sum_cons]
        simp [List.append_assoc, add_assoc]

/-- C9: in the terminal `sl` step, although the day's balance row is re-read once per leg, no write occurs inside the loop, so every leg's percentage is computed against the same base (the row's balance when the step began) and the balance written at the end is exactly that base plus the sum of all per-leg signed PnL values. -/
theorem c9_terminal_balance (db : Db) (today uid : ℤ) (data : TradeData)
    (curr : Chars) (lots : ℚ) (ttype : Chars) (slv : ℚ) (brow : BalanceRow)
    (hc : data.currency = some curr) (hl : data.lots = some lots)
    (ht : data.ttype = some ttype) (hs : data.sl = some slv)
    (hfind : db.balances.find? (balRowMatches today uid) = some brow)
    (hent : data.entry_targets ≠ []) (htps : data.tp_targets ≠ []) :
    slRun db today uid data = .ok (
      { db with
        calcbalances := db.calcbalances ++
          [{ id := db.nextTradeId, currency := curr, lots := lots,
             losses := ((legPnls data.entry_targets data.tp_targets lots ttype).filter
                 (fun v => v < 0)).map (calculate_balance_percent brow.balance),
             gains := ((legPnls data.entry_targets data.tp_targets lots ttype).filter
                 (fun v => 0 ≤ v)).map (calculate_balance_percent brow.balance),
             entrytarget := data.entry_targets, takeprofittarget := data.tp_targets,
             stoploss := slv, ttype := ttype,
             totalbalance := legPnls data.entry_targets data.tp_targets lots ttype }],
        nextTradeId := db.nextTradeId + 1,
        balances := db.balances.map (fun b =>
          if b.id = brow.id then
            { b with
              balance := brow.balance
                + (legPnls data.entry_targets data.tp_targets lots ttype).sum,
              forIds := b.forIds ++ [db.nextTradeId] }
          else b) },
      (legPnls data.entry_targets data.tp_targets lots ttype).sum,
      brow.balance + (legPnls data.entry_targets data.tp_targets lots ttype).sum) := by
  have hloop := slLoopGo_spec db today uid lots ttype data.tp_targets brow hfind htps
    data.entry_targets 0 ⟨[], [], [], 0⟩ none hent
  simp only [slRun, hc, hl, ht, hs, hloop]
  simp [legPnls]

/-- C9 witness: entries `[1, 2]` and single take-profit `[3]` on the example store — leg PnLs `[200, 100]`, both percentages against base 1000 (giving 20 and 10), final balance `1000 + 300`. -/
theorem c9_terminal_balance_witness :
    c9data.entry_targets ≠ []
    ∧ c9data.tp_targets ≠ []
    ∧ exDb.balances.find? (balRowMatches 100 7)
        = some { id := 1, forIds := [], balance := 1000, day := 100, userid := 7 }
    ∧ slRun exDb 100 7 c9data = .ok (
        { calcbalances :=
            [{ id := 1, currency := chars "EURUSD", lots := 1, losses := [],
               gains := [20, 10], entrytarget := [1, 2], takeprofittarget := [3],
               stoploss := 1 / 2, ttype := chars "long", totalbalance := [200, 100] }],
          balances := [{ id := 1, forIds := [1], balance := 1300, day := 100, userid := 7 }],
          nextTradeId := 2, nextBalanceId := 2 },
        300, 1300) :=
  ⟨by decide, by decide, by decide,
    (c9_terminal_balance exDb 100 7 c9data (chars "EURUSD") 1 (chars "long") (1 / 2)
      { id := 1, forIds := [], balance := 1000, day := 100, userid := 7 }
      rfl rfl rfl rfl (by decide) (by decide) (by decide)).trans (by decide)⟩

end TradeTracker
